import Mathlib

/-!
Shallow embedding of the `Player` class of `LFAudio.py` (version 0.2.19),
a queue-driven audio playback library.

Modelling conventions:
* Python lists become `List`, Python `int` becomes `Int`, `None`-able
  fields become `Option`.
* Audio samples (`float32` amplitudes) are modelled as rationals; one
  stereo frame is a pair of samples.
* Operations that can raise a Python exception return `Except PyErr`.
* The output stream, threads, file decoding/resampling, the `random`
  module and logging are external collaborators; they appear as explicit
  arguments (e.g. the requested frame count of a stream callback, the
  decoded sound file handed to `queueSingle`, the permutation drawn by
  `random.shuffle`).  Thread-management fields (`loading`, `stream`,
  `thread`, `end`, callbacks, delays) are not part of the embedded state.
* The volume subsystem (`setVolume` and friends), which lives in
  logarithmic real arithmetic, is embedded separately over `ℝ` as
  `VolumeState` at the end of the definition section.
-/

set_option autoImplicit false

universe u

variable {α : Type u}

/-- Python exceptions that the embedded operations can raise. -/
inductive PyErr
  | attributeError
  | indexError
  | typeError
deriving DecidableEq

/-- Decidable equality of `Except` results, so that concrete runs of the
embedded operations can be checked by `decide`. -/
def exceptDecEq {ε : Type u} {α : Type u} [DecidableEq ε] [DecidableEq α] :
    (a b : Except ε α) → Decidable (a = b)
  | .ok a, .ok b =>
    if h : a = b then .isTrue (by rw [h])
    else .isFalse (fun hc => h (Except.ok.inj hc))
  | .error e, .error f =>
    if h : e = f then .isTrue (by rw [h])
    else .isFalse (fun hc => h (Except.error.inj hc))
  | .ok _, .error _ => .isFalse (fun hc => Except.noConfusion hc)
  | .error _, .ok _ => .isFalse (fun hc => Except.noConfusion hc)

instance {ε : Type u} {α : Type u} [DecidableEq ε] [DecidableEq α] :
    DecidableEq (Except ε α) := exceptDecEq

/-- Python list indexing `xs[i]` with an `int` index: a negative index
counts from the end, an out-of-range index raises `IndexError`. -/
def pyGet (xs : List α) (i : Int) : Except PyErr α :=
  if h : 0 ≤ i ∧ i.toNat < xs.length then .ok (xs.get ⟨i.toNat, h.2⟩)
  else if h2 : i < 0 ∧ 0 ≤ i + xs.length ∧ (i + xs.length).toNat < xs.length then
    .ok (xs.get ⟨(i + xs.length).toNat, h2.2.2⟩)
  else .error .indexError

/-- Python list item assignment `xs[i] = a`: a negative index counts from
the end, an out-of-range index raises `IndexError`. -/
def pySetE (xs : List α) (i : Int) (a : α) : Except PyErr (List α) :=
  if 0 ≤ i ∧ i.toNat < xs.length then .ok (xs.set i.toNat a)
  else if i < 0 ∧ 0 ≤ i + xs.length ∧ (i + xs.length).toNat < xs.length then
    .ok (xs.set (i + xs.length).toNat a)
  else .error .indexError

/-- Adjustment of one slice endpoint to `0 .. n`, as Python does for
`xs[a:b]`: negative endpoints count from the end and everything is
clamped into range. -/
def pyBound (n : Nat) (i : Int) : Nat :=
  if i < 0 then (i + n).toNat else min i.toNat n

/-- Python list slicing `xs[a:b]` (never raises). -/
def pySlice (xs : List α) (a b : Int) : List α :=
  (xs.take (pyBound xs.length b)).drop (pyBound xs.length a)

/-- One stereo frame: a pair of sample amplitudes.  Samples are modelled
as rationals standing in for the float values of the source. -/
abbrev Frame := ℚ × ℚ

/-- `np.multiply(sample, volume)` applied to one stereo frame
(lines 117 and 150 of the source). -/
def scale (v : ℚ) (fr : Frame) : Frame := (fr.1 * v, fr.2 * v)

/-- The mutable state of an `LFAudio.Player` that the embedded operations
touch, with the defaults of `__init__`. -/
structure Player where
  /-- Current position in the track queue (`None` while the queue is empty). -/
  queuePos : Option Int := none
  /-- Paths of the source files. -/
  sources : List String := []
  /-- Number of loops remaining for each audio track (0 = infinite). -/
  loops : List Int := []
  /-- Raw audio data of the queued audio tracks. -/
  data : List (List Frame) := []
  /-- Number of bytes of system memory to keep available. -/
  ramBuffer : Int := 16777216
  /-- Sampling rate of the stream. -/
  samplingrate : Int := 44100
  /-- Marker for if the player is playing. -/
  playing : Bool := false
  /-- Marker for if the player has reached the end of the track. -/
  endTrack : Bool := false
  /-- Marker for if the player has reached the end of the queue. -/
  endQueue : Bool := false
  /-- Number of initial loops for the entire queue (0 = infinite). -/
  queueLoops : Int := 1
  /-- Number of loops remaining for the entire queue (0 = infinite). -/
  queueLoopsRemaining : Int := 1
  /-- Current position in the raw audio data. -/
  callPos : Int := 0
  /-- Volume control as absolute factor. -/
  volume : ℚ := 1
deriving DecidableEq

/-- `stop` (lines 409-411): stop playback and rewind the frame position. -/
def Player.stop (p : Player) : Player := { p with playing := false, callPos := 0 }

/-- The attribute access `self.queuePos.value` that survives at lines 316,
483, 496 and 500 of the source.  After the migration away from the
multiprocessing wrapper (see the commented-out `.value` / `.set` code in
`dequeue` and `nextTrack`), `queuePos` holds a plain Python `int` or
`None`, and neither has a `.value` attribute, so this access always
raises `AttributeError`. -/
def pyQueuePosValue (_q : Option Int) : Except PyErr Int := .error .attributeError

/-- Line 150 of `writeToStream`: append the start of the (possibly new)
current track, scaled by the volume, to the frames produced so far, and
write the result to the stream buffer. -/
def Player.finishTail (p : Player) (dataOut : List Frame) :
    Except PyErr (Player × List Frame) :=
  match p.queuePos with
  | none => .error .typeError
  | some q =>
    match pyGet p.data q with
    | .error e => .error e
    | .ok track => .ok (p, dataOut ++ (pySlice track 0 p.callPos).map (scale p.volume))

/-- `writeToStream` (lines 109-151): the stream callback.  `l` is the
requested frame count (`len(outdata)`); the returned list is the content
written into the output buffer.  `np.append(-, -, axis=0)` on the frame
lists is modelled as list concatenation. -/
def Player.writeToStream (p : Player) (l : Nat) : Except PyErr (Player × List Frame) :=
  if p.playing = false then .ok (p, List.replicate l ((0 : ℚ), (0 : ℚ)))
  else
    match p.queuePos with
    | none => .error .typeError
    | some q0 =>
      match pyGet p.data q0 with
      | .error e => .error e
      | .ok track0 =>
        let dataOut := (pySlice track0 p.callPos (p.callPos + l)).map (scale p.volume)
        let callPos1 := p.callPos + l
        -- Check if the track is over
        if (track0.length : Int) ≤ callPos1 then
          -- New position in the next track
          let callPos2 : Int := (l : Int) - dataOut.length
          match pyGet p.loops q0 with
          | .error e => .error e
          | .ok loops0 =>
            -- Check if this track should be played again or go next
            if 1 < loops0 then
              match pySetE p.loops q0 (loops0 - 1) with
              | .error e => .error e
              | .ok loops' =>
                Player.finishTail { p with callPos := callPos2, loops := loops' } dataOut
            else if loops0 = 1 then
              -- Set marker for reaching the end of the track
              let p1 : Player := { p with callPos := callPos2, endTrack := true }
              -- Check if at the end of the queue
              if q0 + 1 = (p.sources.length : Int) then
                let p2 : Player := { p1 with queuePos := some 0 }
                -- Check if the queue should be played again or stop
                if 1 < p.queueLoopsRemaining then
                  Player.finishTail
                    { p2 with queueLoopsRemaining := p.queueLoopsRemaining - 1 } dataOut
                else if p.queueLoopsRemaining = 1 then
                  -- Set marker for reaching the end of the queue, append the
                  -- stream with zeros, stop the player, reset remaining loops
                  let out := dataOut ++ List.replicate callPos2.toNat ((0 : ℚ), (0 : ℚ))
                  let p3 := p2.stop
                  let p4 : Player :=
                    { p3 with endTrack := true, endQueue := true,
                              queueLoopsRemaining := p.queueLoops }
                  .ok (p4, out)
                else
                  Player.finishTail p2 dataOut
              else
                Player.finishTail { p1 with queuePos := some (q0 + 1) } dataOut
            else
              Player.finishTail { p with callPos := callPos2 } dataOut
        else
          .ok ({ p with callPos := callPos1 }, dataOut)

/-- `nextTrack` (lines 350-364): jump to the next track. -/
def Player.nextTrack (p : Player) : Except PyErr Player :=
  if p.sources.length = 0 then .ok p
  else
    let p1 : Player := { p with callPos := 0 }
    -- If at the end of the queue and looping turned off, stop playing
    let p2 : Player :=
      if p.queuePos = some ((p.sources.length : Int) - 1) ∧ ¬p.queueLoopsRemaining = 0 then
        let ps := p1.stop
        { ps with queueLoopsRemaining := p.queueLoops }
      else p1
    match p2.queuePos with
    | none => .error .typeError
    | some qp => .ok { p2 with queuePos := some ((qp + 1) % (p2.sources.length : Int)) }

/-- The `position` argument of `dequeue`: the default string `"current"`,
a Python `int`, or a value of any other type. -/
inductive DequeueArg
  | current
  | int (i : Int)
  | notInt
deriving DecidableEq

/-- The integer path of `dequeue` (lines 320-340), after the bounds
validation succeeded once the `"current"` default has been resolved. -/
def Player.dequeueIdx (p : Player) (i : Int) : Except PyErr Player :=
  if i < 0 ∨ (p.sources.length : Int) ≤ i then .ok p
  else
    -- Remove the track and its data from all lists
    let sources' := p.sources.eraseIdx i.toNat
    let loops' := p.loops.eraseIdx i.toNat
    let data' := p.data.eraseIdx i.toNat
    let goNext := p.queuePos = some i
    -- `self.queuePos >= position` raises TypeError when queuePos is None
    match p.queuePos with
    | none => .error .typeError
    | some qp =>
      let p1 : Player :=
        { p with sources := sources', loops := loops', data := data',
                 queuePos := if i ≤ qp then some (qp - 1) else some qp }
      let p2 : Player :=
        if sources'.length = 0 then
          let ps := p1.stop
          { ps with queuePos := none }
        else p1
      if goNext then p2.nextTrack else .ok p2

/-- `dequeue` (lines 311-340).  The `"current"` default resolves through
`self.queuePos.value`, which raises `AttributeError` (see
`pyQueuePosValue`); a non-`int` position is reported and ignored. -/
def Player.dequeue (p : Player) (position : DequeueArg) : Except PyErr Player :=
  if p.sources.length = 0 then .ok p
  else
    match position with
    | .current =>
      match pyQueuePosValue p.queuePos with
      | .error e => .error e
      | .ok j => p.dequeueIdx j
    | .notInt => .ok p
    | .int i => p.dequeueIdx i

/-- An argument that is either a Python `int` or a value of another type. -/
inductive PyIntArg
  | int (i : Int)
  | notInt
deriving DecidableEq

/-- `loopTrack` (lines 370-376): change the looping for one track.  The
`track` argument is `None` (default: use the current position) or an
index; the unguarded assignment `self.loops[track] = loops` raises
`IndexError` for an out-of-range index and `TypeError` for `None`. -/
def Player.loopTrack (p : Player) (track : Option Int) (loops : PyIntArg) :
    Except PyErr Player :=
  match loops with
  | .notInt => .ok p
  | .int n =>
    match (match track with | none => p.queuePos | some t => some t) with
    | none => .error .typeError
    | some t =>
      match pySetE p.loops t n with
      | .error e => .error e
      | .ok ls => .ok { p with loops := ls }

/-- `loopQueue` (lines 381-386): change the looping for the entire queue. -/
def Player.loopQueue (p : Player) (loops : PyIntArg) : Except PyErr Player :=
  match loops with
  | .notInt => .ok p
  | .int n => .ok { p with queueLoops := n, queueLoopsRemaining := n }

/-- Recursive helper for `timeToSeconds`: `acc` is the value of the colon
groups read so far, `cur` the digits of the current group. -/
def timeToSecondsAux : List Char → Nat → Nat → Nat
  | [], acc, cur => 60 * acc + cur
  | c :: rest, acc, cur =>
    if c = ':' then timeToSecondsAux rest (60 * acc + cur) 0
    else timeToSecondsAux rest acc (10 * cur + (c.toNat - 48))

/-- Modelled from the spec: `L.timeToSeconds` from the external LFLib is
not part of this repository; per the spec it converts `"mm:ss"` or
`"h:mm:ss"` strings to a number of seconds. -/
def timeToSeconds (s : String) : Int := timeToSecondsAux s.data 0 0

/-- The `timepos` argument of `jumpTo`: a Python `int`, a string, or a
value of any other type. -/
inductive TimeArg
  | int (i : Int)
  | str (s : String)
  | notIntStr
deriving DecidableEq

/-- The bounds check and assignment of `jumpTo` (lines 483-487) once a
frame position has been computed.  The length lookup
`len(self.data[self.queuePos.value])` goes through `queuePos.value` and
therefore raises `AttributeError` before the bounds are compared. -/
def Player.jumpToPos (p : Player) (pos : Int) : Except PyErr Player :=
  match pyQueuePosValue p.queuePos with
  | .error e => .error e
  | .ok q =>
    match pyGet p.data q with
    | .error e => .error e
    | .ok track =>
      if (track.length : Int) ≤ pos ∨ pos < 0 then .ok p
      else .ok { p with callPos := pos }

/-- `jumpTo` (lines 472-487): jump to a given time in an audio track. -/
def Player.jumpTo (p : Player) (timepos : TimeArg) : Except PyErr Player :=
  match timepos with
  | .notIntStr => .ok p
  | .int i => p.jumpToPos (i * p.samplingrate)
  | .str s => p.jumpToPos (timeToSeconds s * p.samplingrate)

/-- Modelled from the spec: `L.reorder` from the external LFLib is not
part of this repository; it rearranges a list so that position `j` of the
result holds the element at index `order[j]` of the input. -/
def reorder (xs : List α) (order : List Nat) : List α :=
  order.filterMap fun i => xs.get? i

/-- `shuffle` (lines 492-507).  The permutation drawn by `random.shuffle`
is passed in as `perm`.  With `keepPos = true` the source reads
`self.queuePos.value` (twice), which raises `AttributeError`. -/
def Player.shuffle (p : Player) (keepPos : Bool) (perm : List Nat → List Nat) :
    Except PyErr Player :=
  let order := List.range p.sources.length
  if keepPos then
    match pyQueuePosValue p.queuePos with
    | .error e => .error e
    | .ok q =>
      let order1 := (perm (order.eraseIdx q.toNat)).insertIdx q.toNat q.toNat
      .ok { p with sources := reorder p.sources order1,
                   loops := reorder p.loops order1,
                   data := reorder p.data order1 }
  else
    let order1 := perm order
    .ok { p with sources := reorder p.sources order1,
                 loops := reorder p.loops order1,
                 data := reorder p.data order1 }

/-- The information `queueSingle` reads from an opened sound file: the
frame count and native sampling rate reported by the decoder, the channel
count, and the decoded content (per-sample values when mono, stereo rows
otherwise). -/
structure SoundFile where
  frames : Int
  samplerate : Int
  channels : Int
  monoSamples : List ℚ
  stereoSamples : List Frame
deriving DecidableEq

/-- `queueSingle` (lines 236-289), success and capacity-refusal paths.
`availableMemory` stands for `psutil.virtual_memory().available` and
`resample` for the external `samplerate.resample` collaborator (invoked
only when the native rate differs from the stream rate).  The returned
flag is the function's boolean result; on a capacity refusal the player
is returned unchanged.  The `loading` handshake and the decode-failure
exception path concern threads and file I/O and are outside the embedded
state. -/
def Player.queueSingle (p : Player) (source : String) (f : SoundFile)
    (availableMemory : Int) (resample : List Frame → List Frame) : Player × Bool :=
  -- Check file size
  if availableMemory - p.ramBuffer < f.frames * 4 * 8 then (p, false)
  else
    -- If the file is mono, convert to stereo
    let data0 := if f.channels = 1 then f.monoSamples.map (fun s => (s, s)) else f.stereoSamples
    -- Possibly resample data
    let data := if p.samplingrate = f.samplerate then data0 else resample data0
    let p1 : Player := if p.sources.length = 0 then { p with queuePos := some 0 } else p
    ({ p1 with sources := p1.sources ++ [source], loops := p1.loops ++ [1],
               data := p1.data ++ [data] }, true)

/-- The volume-related state of a `Player`: current volume, fade target
and per-tick change, and the tick interval, modelled over `ℝ` since the
source works in logarithmic float arithmetic. -/
structure VolumeState where
  volume : ℝ
  targetVolume : Option ℝ
  volumeChange : Option ℝ
  settingDelay : ℝ

/-- `setVolume` (lines 417-425): set the volume as an absolute factor,
clamped to `[0, 1]`; a non-zero pace schedules a decibel-stepped fade. -/
noncomputable def VolumeState.setVolume (v : VolumeState) (volume pace : ℝ) : VolumeState :=
  let target := min (max volume 0) 1
  if pace = 0 then { v with volume := target }
  else
    { v with volumeChange := some (v.settingDelay * (20 * Real.logb 10 (target / v.volume)) / pace),
             targetVolume := some target }

/-- `setVolumeDB` (lines 431-433): set the volume in decibels via
`10 ^ (dB / 20)`. -/
noncomputable def VolumeState.setVolumeDB (v : VolumeState) (volume pace : ℝ) : VolumeState :=
  v.setVolume ((10 : ℝ) ^ (volume / 20)) pace

/-- Modelled from the spec: a `getVolumeDB` accessor does not exist in the
source; per the spec's round-trip property it reads the current volume
back in decibels, inverting `absolute = 10 ^ (dB / 20)`. -/
noncomputable def VolumeState.getVolumeDB (v : VolumeState) : ℝ :=
  20 * Real.logb 10 v.volume

/-! ### Concrete instances used as witnesses and counterexamples -/

/-- Duplicate a mono sample list into stereo frames (convenient for
building concrete track data). -/
def mkTrack (xs : List ℚ) : List Frame := xs.map fun x => (x, x)

/-- A playing single-track player one frame before the end of its last
queue pass: two frames already played of a four-frame track, track loop
count 1, one queue pass remaining. -/
def playerAtQueueEnd : Player :=
  { queuePos := some 0, sources := ["a"], loops := [1],
    data := [mkTrack [1, 2, 3, 4]], playing := true, callPos := 2 }

/-- A playing single-track player with an infinitely looping track
(`loops[0] = 0`), mid-track. -/
def playerInfiniteTrack : Player :=
  { queuePos := some 0, sources := ["a"], loops := [0],
    data := [mkTrack [1, 2, 3, 4]], playing := true, callPos := 2 }

/-- A playing two-frame single-track player at the start of its track. -/
def playerSmall : Player :=
  { queuePos := some 0, sources := ["a"], loops := [1],
    data := [mkTrack [1, 2]], playing := true }

/-- A playing three-track player whose current track is at queue
position 1. -/
def playerThree : Player :=
  { queuePos := some 1, sources := ["a", "b", "c"], loops := [1, 1, 1],
    data := [mkTrack [1, 2], mkTrack [3, 4], mkTrack [5, 6]], playing := true }

/-- A playing single-track player at the last queue index with three
queue passes still owed (`queueLoopsRemaining = 3`). -/
def playerOwingLoops : Player :=
  { queuePos := some 0, sources := ["a"], loops := [1],
    data := [mkTrack [1, 2]], playing := true, queueLoops := 1,
    queueLoopsRemaining := 3 }

/-- A stereo sound file reporting 10 frames. -/
def smallFile : SoundFile := ⟨10, 44100, 2, [], mkTrack [1]⟩

/-- A playing single-track player with an 8-frame track, used to exercise
the operations that raise. -/
def playerOneTrack : Player :=
  { queuePos := some 0, sources := ["t"], loops := [1],
    data := [mkTrack [1, 2, 3, 4, 5, 6, 7, 8]], playing := true }

/-- A volume state at full volume with the default 50 ms tick. -/
noncomputable def volInit : VolumeState := ⟨1, none, none, 1 / 20⟩

/-! ### Statements of claims that the code refutes, as written -/

/-- The claim that `nextTrack` stops playback exactly when the current
index is the last one and no further queue passes are owed
(`queueLoopsRemaining = 1`; `0` means infinite looping). -/
def nextTrackStopClaim : Prop :=
  ∀ (p : Player) (q : Int), p.playing = true → p.queuePos = some q →
    0 ≤ q → q < (p.sources.length : Int) →
    ∃ p', p.nextTrack = .ok p' ∧ p'.callPos = 0 ∧
      p'.queuePos = some ((q + 1) % (p.sources.length : Int)) ∧
      (p'.playing = false ↔ q = (p.sources.length : Int) - 1 ∧ p.queueLoopsRemaining = 1)

/-- The claim that `queueSingle` refuses a file exactly when its
estimated footprint of `frames * 4 bytes * 2 channels` exceeds the
available memory minus the headroom, and that a refusal leaves the
player unchanged. -/
def queueSingleMemoryClaim : Prop :=
  ∀ (p : Player) (source : String) (f : SoundFile) (avail : Int)
    (resample : List Frame → List Frame),
    ((p.queueSingle source f avail resample).2 = false ↔
      avail - p.ramBuffer < f.frames * 4 * 2) ∧
    ((p.queueSingle source f avail resample).2 = false →
      (p.queueSingle source f avail resample).1 = p)

/-- The claim that setting the volume to `x` dB (instantly) and reading
it back yields `x`, for `x` in the representative range -40 dB..+12 dB. -/
def volumeRoundTripClaim : Prop :=
  ∀ (v : VolumeState) (x : ℝ), -40 ≤ x → x ≤ 12 →
    (v.setVolumeDB x 0).getVolumeDB = x

/-! ### Helper lemmas -/

theorem pyGet_eq_ok (xs : List α) (i : Int) (h0 : 0 ≤ i) (h : i.toNat < xs.length) :
    pyGet xs i = .ok (xs.get ⟨i.toNat, h⟩) := by
  unfold pyGet
  rw [dif_pos (And.intro h0 h)]

theorem pyGet_ok_mem {xs : List α} {i : Int} {a : α} (h : pyGet xs i = .ok a) :
    a ∈ xs := by
  unfold pyGet at h
  split at h
  · exact (Except.ok.inj h) ▸ xs.get_mem _ _
  · split at h
    · exact (Except.ok.inj h) ▸ xs.get_mem _ _
    · exact absurd h (by simp)

theorem pySetE_eq_ok (xs : List α) (i : Int) (a : α) (h0 : 0 ≤ i)
    (h : i.toNat < xs.length) : pySetE xs i a = .ok (xs.set i.toNat a) := by
  unfold pySetE
  rw [if_pos (And.intro h0 h)]

theorem writeToStream_not_playing (p : Player) (l : Nat) (h : p.playing = false) :
    p.writeToStream l = .ok (p, List.replicate l ((0 : ℚ), (0 : ℚ))) := by
  unfold Player.writeToStream
  rw [if_pos h]

/-! ### C7, C8, C9: operations that raise -/

/-- C7: the claim that `jumpTo("1:30")` at 44100 Hz seeks to frame
`90 * 44100` (and out-of-bounds requests are rejected with `callPos`
unchanged) fails on the code: the bounds check reads
`self.queuePos.value`, which raises `AttributeError` on every call whose
argument passes the type check, so the requested position (whose intended
frame index is indeed `90 * 44100`) is never assigned. -/
theorem jumpTo_always_raises :
    playerOneTrack.jumpTo (.str "1:30") = .error .attributeError ∧
    timeToSeconds "1:30" * playerOneTrack.samplingrate = 90 * 44100 := by
  constructor
  · rfl
  · decide

/-- C8: the claim that `shuffle(keepPos=true)` keeps the current track in
place and permutes the rest fails on the code: `shuffle` with
`keepPos=true` reads `self.queuePos.value` and raises `AttributeError`
before any reordering happens. -/
theorem shuffle_keepPos_raises :
    playerOneTrack.shuffle true id = .error .attributeError := rfl

/-- C9: the claim that invalid arguments are always detected, reported
and left without effect fails on the code: `loopTrack` with an
out-of-range track index raises `IndexError` (the index is never
validated), and `dequeue()` with its default `"current"` position as well
as any in-type `jumpTo` call raise `AttributeError` through
`queuePos.value`. -/
theorem invalid_arguments_raise :
    playerOneTrack.loopTrack (some 1) (.int 2) = .error .indexError ∧
    playerOneTrack.dequeue .current = .error .attributeError ∧
    playerOneTrack.jumpTo (.int 1000) = .error .attributeError := by
  refine ⟨by decide, rfl, rfl⟩

/-! ### C3: dequeueing the playing middle track of three -/

/-- C3: on a 3-track queue whose current track is at position 1,
`dequeue(1)` removes that track, leaves `queuePos` pointing at the track
that was previously at index 2, and resets `callPos` to 0. -/
theorem dequeue_removes_current_of_three (p : Player) (s0 s1 s2 : String)
    (l0 l1 l2 : Int) (d0 d1 d2 : List Frame)
    (hs : p.sources = [s0, s1, s2]) (hl : p.loops = [l0, l1, l2])
    (hd : p.data = [d0, d1, d2]) (hq : p.queuePos = some 1) :
    p.dequeue (.int 1) =
      .ok
        { p with sources := [s0, s2], loops := [l0, l2], data := [d0, d2],
                 queuePos := some 1, callPos := 0 } := by
  unfold Player.dequeue Player.dequeueIdx Player.nextTrack Player.stop
  simp [hs, hl, hd, hq]

/-- Witness for C3 at a concrete 3-track player. -/
theorem dequeue_removes_current_of_three_witness :
    playerThree.dequeue (.int 1) =
      .ok
        { playerThree with sources := ["a", "c"], loops := [1, 1],
                           data := [mkTrack [1, 2], mkTrack [5, 6]],
                           queuePos := some 1, callPos := 0 } :=
  dequeue_removes_current_of_three playerThree "a" "b" "c" 1 1 1
    (mkTrack [1, 2]) (mkTrack [3, 4]) (mkTrack [5, 6]) rfl rfl rfl rfl

/-! ### C4: when `nextTrack` stops playback -/

/-- C4 counterexample: at the last queue index with three queue passes
still owed (`queueLoopsRemaining = 3`), `nextTrack` stops playback even
though queue looping is not exhausted, so `nextTrackStopClaim` is false. -/
theorem nextTrack_stop_claim_cex : ¬nextTrackStopClaim := by
  intro h
  obtain ⟨p', hstep, -, -, hiff⟩ :=
    h playerOwingLoops 0 rfl rfl (by norm_num) (by decide)
  have hres : playerOwingLoops.nextTrack =
      .ok
        { playerOwingLoops with playing := false, callPos := 0,
                                queueLoopsRemaining := 1, queuePos := some 0 } := by
    decide
  rw [hres] at hstep
  have hp' := Except.ok.inj hstep
  rw [← hp'] at hiff
  obtain ⟨-, h31⟩ := hiff.mp rfl
  exact absurd h31 (by decide)


/-- C4 amended: for every non-empty queue with a playing player,
`nextTrack` resets `callPos` to 0, advances `queuePos` by one modulo the
queue length, and stops playback (resetting `queueLoopsRemaining` to
`queueLoops`) if and only if the current index is the last one and queue
looping is not infinite (`queueLoopsRemaining ≠ 0`). -/
theorem nextTrack_stop_iff_looping_finite (p : Player) (q : Int)
    (hp : p.playing = true) (hq : p.queuePos = some q)
    (h0 : 0 ≤ q) (hlt : q < (p.sources.length : Int)) :
    ∃ p', p.nextTrack = .ok p' ∧ p'.callPos = 0 ∧
      p'.queuePos = some ((q + 1) % (p.sources.length : Int)) ∧
      (p'.playing = false ↔ q = (p.sources.length : Int) - 1 ∧
        p.queueLoopsRemaining ≠ 0) ∧
      (p'.playing = false → p'.queueLoopsRemaining = p.queueLoops) ∧
      (p'.playing = true → p'.queueLoopsRemaining = p.queueLoopsRemaining) := by
  have hne : ¬p.sources.length = 0 := by omega
  unfold Player.nextTrack Player.stop
  rw [if_neg hne]
  simp only [hq, Option.some.injEq]
  by_cases hcond : q = (p.sources.length : Int) - 1 ∧ ¬p.queueLoopsRemaining = 0
  · rw [if_pos hcond]
    refine ⟨_, rfl, rfl, rfl, ?_, fun _ => rfl, ?_⟩
    · exact ⟨fun _ => ⟨hcond.1, hcond.2⟩, fun _ => rfl⟩
    · intro hfalse
      exact absurd hfalse (by simp)
  · rw [if_neg hcond]
    refine ⟨_, rfl, rfl, rfl, ?_, ?_, fun _ => rfl⟩
    · show p.playing = false ↔ _
      rw [hp]
      exact ⟨fun hfalse => absurd hfalse (by simp), fun hrhs => absurd hrhs hcond⟩
    · show p.playing = false → _
      rw [hp]
      intro hfalse
      exact absurd hfalse (by simp)

/-- Witness for C4 at a concrete single-track player owing three queue
passes: `nextTrack` stops it because its looping is finite. -/
theorem nextTrack_stop_iff_looping_finite_witness :
    ∃ p', playerOwingLoops.nextTrack = .ok p' ∧ p'.callPos = 0 ∧
      p'.queuePos = some ((0 + 1) % (playerOwingLoops.sources.length : Int)) ∧
      (p'.playing = false ↔ 0 = (playerOwingLoops.sources.length : Int) - 1 ∧
        playerOwingLoops.queueLoopsRemaining ≠ 0) ∧
      (p'.playing = false → p'.queueLoopsRemaining = playerOwingLoops.queueLoops) ∧
      (p'.playing = true →
        p'.queueLoopsRemaining = playerOwingLoops.queueLoopsRemaining) :=
  nextTrack_stop_iff_looping_finite playerOwingLoops 0 rfl rfl (by norm_num)
    (by decide)

/-! ### C5: the memory-capacity check of `queueSingle` -/

/-- C5 counterexample: with 100 bytes of memory to spare beyond the
headroom, a 10-frame file is refused by the code (its estimate is
`10 * 4 * 8 = 320` bytes) although the claimed estimate
`10 * 4 * 2 = 80` bytes would fit, so `queueSingleMemoryClaim` is
false. -/
theorem queueSingle_memory_claim_cex : ¬queueSingleMemoryClaim := by
  intro h
  have h1 := (h {} "x" smallFile (16777216 + 100) id).1
  revert h1
  decide

/-- C5 amended: `queueSingle` refuses a file if and only if its estimate
of `frames * 4 * 8` bytes exceeds the available memory minus the
`ramBuffer` headroom, and a refusal leaves the player unchanged. -/
theorem queueSingle_memory_check (p : Player) (source : String) (f : SoundFile)
    (avail : Int) (resample : List Frame → List Frame) :
    ((p.queueSingle source f avail resample).2 = false ↔
      avail - p.ramBuffer < f.frames * 4 * 8) ∧
    ((p.queueSingle source f avail resample).2 = false →
      (p.queueSingle source f avail resample).1 = p) := by
  unfold Player.queueSingle
  by_cases hc : avail - p.ramBuffer < f.frames * 4 * 8
  · rw [if_pos hc]
    exact ⟨by simp [hc], fun _ => rfl⟩
  · rw [if_neg hc]
    constructor
    · simp [hc]
    · intro hfalse
      exact absurd hfalse (by simp)

/-! ### C6: decibel round-trip of the volume setting -/

/-- C6 counterexample: `setVolumeDB(12)` clamps the absolute volume
`10 ^ (12/20) > 1` down to 1, so reading the volume back gives 0 dB, not
12 dB; `volumeRoundTripClaim` is false. -/
theorem volume_roundtrip_claim_cex : ¬volumeRoundTripClaim := by
  intro h
  have h12 := h volInit 12 (by norm_num) (by norm_num)
  have hval : (volInit.setVolumeDB 12 0).getVolumeDB = 0 := by
    unfold VolumeState.setVolumeDB VolumeState.setVolume VolumeState.getVolumeDB
    rw [if_pos rfl]
    have h1 : (1 : ℝ) ≤ (10 : ℝ) ^ ((12 : ℝ) / 20) :=
      Real.one_le_rpow (by norm_num) (by norm_num)
    have h2 : (0 : ℝ) ≤ (10 : ℝ) ^ ((12 : ℝ) / 20) := by linarith
    show 20 * Real.logb 10 (min (max ((10 : ℝ) ^ ((12 : ℝ) / 20)) 0) 1) = 0
    rw [max_eq_left h2, min_eq_right h1, Real.logb_one, mul_zero]
  rw [hval] at h12
  norm_num at h12

/-- C6 amended: for `x` in the non-positive part `[-40, 0]` of the
claimed range, `setVolumeDB(x)` with pace 0 followed by reading the
volume back in decibels yields exactly `x` (the `[0,1]` clamp of
`setVolume` makes every positive decibel value read back as 0). -/
theorem volume_roundtrip_nonpos (v : VolumeState) (x : ℝ)
    (hlo : -40 ≤ x) (hhi : x ≤ 0) :
    (v.setVolumeDB x 0).getVolumeDB = x := by
  clear hlo
  unfold VolumeState.setVolumeDB VolumeState.setVolume VolumeState.getVolumeDB
  rw [if_pos rfl]
  have hpos : (0 : ℝ) < (10 : ℝ) ^ (x / 20) := Real.rpow_pos_of_pos (by norm_num) _
  have hle : (10 : ℝ) ^ (x / 20) ≤ 1 :=
    Real.rpow_le_one_of_one_le_of_nonpos (by norm_num) (by linarith)
  show 20 * Real.logb 10 (min (max ((10 : ℝ) ^ (x / 20)) 0) 1) = x
  rw [max_eq_left hpos.le, min_eq_left hle,
    Real.logb_rpow (by norm_num) (by norm_num)]
  ring

/-- Witness for C6 at -20 dB from full volume. -/
theorem volume_roundtrip_nonpos_witness :
    (volInit.setVolumeDB (-20) 0).getVolumeDB = -20 :=
  volume_roundtrip_nonpos volInit (-20) (by norm_num) (by norm_num)

theorem length_pySlice_nonneg (xs : List α) (a : Int) (l : Nat) (h0 : 0 ≤ a) :
    (pySlice xs a (a + l)).length =
      min (a.toNat + l) xs.length - min a.toNat xs.length := by
  have h1 : ¬a < 0 := by omega
  have h2 : ¬a + (l : Int) < 0 := by omega
  have h3 : (a + (l : Int)).toNat = a.toNat + l := by omega
  simp [pySlice, pyBound, h1, h2, h3]

theorem pySlice_zero (xs : List α) (b : Int) (hb : 0 ≤ b)
    (hbl : b.toNat ≤ xs.length) : pySlice xs 0 b = xs.take b.toNat := by
  have h1 : ¬(0 : Int) < 0 := by omega
  have h2 : ¬b < 0 := by omega
  simp [pySlice, pyBound, h1, h2, min_eq_left hbl]

theorem finishTail_eq (p : Player) (dataOut : List Frame) (q : Int)
    (track : List Frame) (hq : p.queuePos = some q)
    (ht : pyGet p.data q = .ok track) :
    p.finishTail dataOut =
      .ok (p, dataOut ++ (pySlice track 0 p.callPos).map (scale p.volume)) := by
  unfold Player.finishTail
  simp only [hq, ht]

theorem writeToStream_mid_track (p : Player) (l : Nat) (q : Int)
    (track : List Frame)
    (hp : p.playing = true) (hq : p.queuePos = some q)
    (ht : pyGet p.data q = .ok track)
    (hnb : p.callPos + l < (track.length : Int)) :
    p.writeToStream l =
      .ok ({ p with callPos := p.callPos + l },
        (pySlice track p.callPos (p.callPos + l)).map (scale p.volume)) := by
  unfold Player.writeToStream
  rw [if_neg (by simp [hp])]
  simp only [hq, ht]
  rw [if_neg (by omega)]

theorem writeToStream_track_again (p : Player) (l : Nat) (q : Int)
    (track : List Frame) (loops0 : Int)
    (hp : p.playing = true) (hq : p.queuePos = some q)
    (ht : pyGet p.data q = .ok track)
    (hloops : pyGet p.loops q = .ok loops0) (hgt : 1 < loops0)
    (h0q : 0 ≤ q) (hqL : q.toNat < p.loops.length)
    (h0c : 0 ≤ p.callPos) (hcN : p.callPos < (track.length : Int))
    (hb : (track.length : Int) ≤ p.callPos + l) (hl : l ≤ track.length) :
    p.writeToStream l =
      .ok
        ({ p with loops := p.loops.set q.toNat (loops0 - 1),
                  callPos := p.callPos + l - track.length },
         (pySlice track p.callPos (p.callPos + l)).map (scale p.volume) ++
           (track.take (p.callPos + (l : Int) - track.length).toNat).map
             (scale p.volume)) := by
  have hdl : ((pySlice track p.callPos (p.callPos + l)).map
      (scale p.volume)).length = track.length - p.callPos.toNat := by
    rw [List.length_map, length_pySlice_nonneg _ _ _ h0c]
    omega
  unfold Player.writeToStream
  rw [if_neg (by simp [hp])]
  simp only [hq, ht]
  rw [if_pos hb]
  simp only [hloops]
  rw [if_pos hgt]
  simp only [pySetE_eq_ok p.loops q (loops0 - 1) h0q hqL]
  simp only [Player.finishTail, ht]
  have hc2 : (l : Int) - ((pySlice track p.callPos (p.callPos + l)).map
      (scale p.volume)).length = p.callPos + l - track.length := by
    rw [hdl]
    omega
  rw [hc2, pySlice_zero track _ (by omega) (by omega)]

theorem writeToStream_next_track (p : Player) (l : Nat) (q : Int)
    (track track1 : List Frame)
    (hp : p.playing = true) (hq : p.queuePos = some q)
    (ht : pyGet p.data q = .ok track)
    (hloops : pyGet p.loops q = .ok 1)
    (hnotlast : ¬q + 1 = (p.sources.length : Int))
    (ht1 : pyGet p.data (q + 1) = .ok track1)
    (h0c : 0 ≤ p.callPos) (hcN : p.callPos < (track.length : Int))
    (hb : (track.length : Int) ≤ p.callPos + l) (hl : l ≤ track.length)
    (hl1 : l ≤ track1.length) :
    p.writeToStream l =
      .ok
        ({ p with callPos := p.callPos + l - track.length, endTrack := true,
                  queuePos := some (q + 1) },
         (pySlice track p.callPos (p.callPos + l)).map (scale p.volume) ++
           (track1.take (p.callPos + (l : Int) - track.length).toNat).map
             (scale p.volume)) := by
  have hdl : ((pySlice track p.callPos (p.callPos + l)).map
      (scale p.volume)).length = track.length - p.callPos.toNat := by
    rw [List.length_map, length_pySlice_nonneg _ _ _ h0c]
    omega
  unfold Player.writeToStream
  rw [if_neg (by simp [hp])]
  simp only [hq, ht]
  rw [if_pos hb]
  simp only [hloops]
  rw [if_neg (by norm_num : ¬(1 : Int) < 1), if_pos trivial, if_neg hnotlast]
  simp only [Player.finishTail, ht1]
  have hc2 : (l : Int) - ((pySlice track p.callPos (p.callPos + l)).map
      (scale p.volume)).length = p.callPos + l - track.length := by
    rw [hdl]
    omega
  rw [hc2, pySlice_zero track1 _ (by omega) (by omega)]

theorem writeToStream_queue_wrap (p : Player) (l : Nat) (q : Int)
    (track track0 : List Frame)
    (hp : p.playing = true) (hq : p.queuePos = some q)
    (ht : pyGet p.data q = .ok track)
    (hloops : pyGet p.loops q = .ok 1)
    (hlast : q + 1 = (p.sources.length : Int))
    (hrg : 1 < p.queueLoopsRemaining)
    (ht0 : pyGet p.data 0 = .ok track0)
    (h0c : 0 ≤ p.callPos) (hcN : p.callPos < (track.length : Int))
    (hb : (track.length : Int) ≤ p.callPos + l) (hl : l ≤ track.length)
    (hl0 : l ≤ track0.length) :
    p.writeToStream l =
      .ok
        ({ p with callPos := p.callPos + l - track.length, endTrack := true,
                  queuePos := some 0,
                  queueLoopsRemaining := p.queueLoopsRemaining - 1 },
         (pySlice track p.callPos (p.callPos + l)).map (scale p.volume) ++
           (track0.take (p.callPos + (l : Int) - track.length).toNat).map
             (scale p.volume)) := by
  have hdl : ((pySlice track p.callPos (p.callPos + l)).map
      (scale p.volume)).length = track.length - p.callPos.toNat := by
    rw [List.length_map, length_pySlice_nonneg _ _ _ h0c]
    omega
  unfold Player.writeToStream
  rw [if_neg (by simp [hp])]
  simp only [hq, ht]
  rw [if_pos hb]
  simp only [hloops]
  rw [if_neg (by norm_num : ¬(1 : Int) < 1), if_pos trivial, if_pos hlast,
    if_pos hrg]
  simp only [Player.finishTail, ht0]
  have hc2 : (l : Int) - ((pySlice track p.callPos (p.callPos + l)).map
      (scale p.volume)).length = p.callPos + l - track.length := by
    rw [hdl]
    omega
  rw [hc2, pySlice_zero track0 _ (by omega) (by omega)]

theorem writeToStream_queue_wrap_inf (p : Player) (l : Nat) (q : Int)
    (track track0 : List Frame)
    (hp : p.playing = true) (hq : p.queuePos = some q)
    (ht : pyGet p.data q = .ok track)
    (hloops : pyGet p.loops q = .ok 1)
    (hlast : q + 1 = (p.sources.length : Int))
    (hnrg : ¬1 < p.queueLoopsRemaining) (hnre : ¬p.queueLoopsRemaining = 1)
    (ht0 : pyGet p.data 0 = .ok track0)
    (h0c : 0 ≤ p.callPos) (hcN : p.callPos < (track.length : Int))
    (hb : (track.length : Int) ≤ p.callPos + l) (hl : l ≤ track.length)
    (hl0 : l ≤ track0.length) :
    p.writeToStream l =
      .ok
        ({ p with callPos := p.callPos + l - track.length, endTrack := true,
                  queuePos := some 0 },
         (pySlice track p.callPos (p.callPos + l)).map (scale p.volume) ++
           (track0.take (p.callPos + (l : Int) - track.length).toNat).map
             (scale p.volume)) := by
  have hdl : ((pySlice track p.callPos (p.callPos + l)).map
      (scale p.volume)).length = track.length - p.callPos.toNat := by
    rw [List.length_map, length_pySlice_nonneg _ _ _ h0c]
    omega
  unfold Player.writeToStream
  rw [if_neg (by simp [hp])]
  simp only [hq, ht]
  rw [if_pos hb]
  simp only [hloops]
  rw [if_neg (by norm_num : ¬(1 : Int) < 1), if_pos trivial, if_pos hlast,
    if_neg hnrg, if_neg hnre]
  simp only [Player.finishTail, ht0]
  have hc2 : (l : Int) - ((pySlice track p.callPos (p.callPos + l)).map
      (scale p.volume)).length = p.callPos + l - track.length := by
    rw [hdl]
    omega
  rw [hc2, pySlice_zero track0 _ (by omega) (by omega)]

theorem writeToStream_queue_end (p : Player) (l : Nat) (q : Int)
    (track : List Frame)
    (hp : p.playing = true) (hq : p.queuePos = some q)
    (ht : pyGet p.data q = .ok track)
    (hloops : pyGet p.loops q = .ok 1)
    (hlast : q + 1 = (p.sources.length : Int))
    (hre : p.queueLoopsRemaining = 1)
    (h0c : 0 ≤ p.callPos) (hcN : p.callPos < (track.length : Int))
    (hb : (track.length : Int) ≤ p.callPos + l) (hl : l ≤ track.length) :
    p.writeToStream l =
      .ok
        ({ p with playing := false, callPos := 0, endTrack := true,
                  endQueue := true, queuePos := some 0,
                  queueLoopsRemaining := p.queueLoops },
         (pySlice track p.callPos (p.callPos + l)).map (scale p.volume) ++
           List.replicate (p.callPos + (l : Int) - track.length).toNat
             ((0 : ℚ), (0 : ℚ))) := by
  have hdl : ((pySlice track p.callPos (p.callPos + l)).map
      (scale p.volume)).length = track.length - p.callPos.toNat := by
    rw [List.length_map, length_pySlice_nonneg _ _ _ h0c]
    omega
  unfold Player.writeToStream Player.stop
  rw [if_neg (by simp [hp])]
  simp only [hq, ht]
  rw [if_pos hb]
  simp only [hloops]
  rw [if_neg (by norm_num : ¬(1 : Int) < 1), if_pos trivial, if_pos hlast]
  rw [if_neg (by omega), if_pos hre]
  have hc2 : (l : Int) - ((pySlice track p.callPos (p.callPos + l)).map
      (scale p.volume)).length = p.callPos + l - track.length := by
    rw [hdl]
    omega
  rw [hc2]

theorem writeToStream_track_inf (p : Player) (l : Nat) (q : Int)
    (track : List Frame) (loops0 : Int)
    (hp : p.playing = true) (hq : p.queuePos = some q)
    (ht : pyGet p.data q = .ok track)
    (hloops : pyGet p.loops q = .ok loops0)
    (hngt : ¬1 < loops0) (hne1 : ¬loops0 = 1)
    (h0c : 0 ≤ p.callPos) (hcN : p.callPos < (track.length : Int))
    (hb : (track.length : Int) ≤ p.callPos + l) (hl : l ≤ track.length) :
    p.writeToStream l =
      .ok
        ({ p with callPos := p.callPos + l - track.length },
         (pySlice track p.callPos (p.callPos + l)).map (scale p.volume) ++
           (track.take (p.callPos + (l : Int) - track.length).toNat).map
             (scale p.volume)) := by
  have hdl : ((pySlice track p.callPos (p.callPos + l)).map
      (scale p.volume)).length = track.length - p.callPos.toNat := by
    rw [List.length_map, length_pySlice_nonneg _ _ _ h0c]
    omega
  unfold Player.writeToStream
  rw [if_neg (by simp [hp])]
  simp only [hq, ht]
  rw [if_pos hb]
  simp only [hloops]
  rw [if_neg hngt, if_neg hne1]
  simp only [Player.finishTail, ht]
  have hc2 : (l : Int) - ((pySlice track p.callPos (p.callPos + l)).map
      (scale p.volume)).length = p.callPos + l - track.length := by
    rw [hdl]
    omega
  rw [hc2, pySlice_zero track _ (by omega) (by omega)]

/-- C1: on a valid playing-or-paused player state whose every queued track
has at least `L` frames, `writeToStream` with requested frame count `L`
succeeds, writes exactly `L` stereo frames to the output buffer, and
afterwards leaves `callPos` inside `[0, len(current track))` — except
possibly when the call just ended the queue and stopped playback. -/
theorem writeToStream_exact_frames (p : Player) (l : Nat) (q : Int)
    (track : List Frame)
    (hq : p.queuePos = some q) (h0q : 0 ≤ q) (hqN : q.toNat < p.data.length)
    (hLoops : p.loops.length = p.data.length)
    (hSrc : p.sources.length = p.data.length)
    (ht : pyGet p.data q = .ok track)
    (h0c : 0 ≤ p.callPos) (hcN : p.callPos < (track.length : Int))
    (hall : ∀ t ∈ p.data, l ≤ t.length) :
    ∃ p' out, p.writeToStream l = .ok (p', out) ∧ out.length = l ∧
      ((p'.endQueue = true ∧ p'.playing = false) ∨
        ∃ q' track', p'.queuePos = some q' ∧ pyGet p'.data q' = .ok track' ∧
          0 ≤ p'.callPos ∧ p'.callPos < (track'.length : Int)) := by
  have htl : l ≤ track.length := hall track (pyGet_ok_mem ht)
  have hdl : ((pySlice track p.callPos (p.callPos + l)).map
      (scale p.volume)).length =
      min (p.callPos.toNat + l) track.length - p.callPos.toNat := by
    rw [List.length_map, length_pySlice_nonneg _ _ _ h0c]
    omega
  cases hpl : p.playing with
  | false =>
    refine ⟨p, _, writeToStream_not_playing p l hpl, by simp,
      Or.inr ⟨q, track, hq, ht, h0c, hcN⟩⟩
  | true =>
    by_cases hbc : (track.length : Int) ≤ p.callPos + l
    · have hqL : q.toNat < p.loops.length := by omega
      obtain ⟨loops0, hloops⟩ : ∃ v, pyGet p.loops q = .ok v :=
        ⟨_, pyGet_eq_ok p.loops q h0q hqL⟩
      have hc2a : 0 ≤ p.callPos + (l : Int) - track.length := by omega
      have hc2b : (p.callPos + (l : Int) - track.length) < l := by omega
      by_cases hgt : 1 < loops0
      · rw [writeToStream_track_again p l q track loops0 hpl hq ht hloops hgt
          h0q hqL h0c hcN hbc htl]
        refine ⟨_, _, rfl, ?_, Or.inr ⟨q, track, hq, ht, hc2a,
          (by omega : p.callPos + (l : Int) - track.length < track.length)⟩⟩
        rw [List.length_append, hdl, List.length_map, List.length_take]
        omega
      · by_cases he1 : loops0 = 1
        · subst he1
          by_cases hlast : q + 1 = (p.sources.length : Int)
          · by_cases hrg : 1 < p.queueLoopsRemaining
            · have h0N : (0 : Int).toNat < p.data.length := by omega
              obtain ⟨track0, ht0⟩ : ∃ t, pyGet p.data 0 = .ok t :=
                ⟨_, pyGet_eq_ok p.data 0 (by omega) h0N⟩
              have hl0 : l ≤ track0.length := hall track0 (pyGet_ok_mem ht0)
              rw [writeToStream_queue_wrap p l q track track0 hpl hq ht hloops
                hlast hrg ht0 h0c hcN hbc htl hl0]
              refine ⟨_, _, rfl, ?_, Or.inr ⟨0, track0, rfl, ht0, hc2a,
                (by omega : p.callPos + (l : Int) - track.length <
                  track0.length)⟩⟩
              rw [List.length_append, hdl, List.length_map, List.length_take]
              omega
            · by_cases hre : p.queueLoopsRemaining = 1
              · rw [writeToStream_queue_end p l q track hpl hq ht hloops hlast
                  hre h0c hcN hbc htl]
                refine ⟨_, _, rfl, ?_, Or.inl ⟨rfl, rfl⟩⟩
                rw [List.length_append, hdl, List.length_replicate]
                omega
              · have h0N : (0 : Int).toNat < p.data.length := by omega
                obtain ⟨track0, ht0⟩ : ∃ t, pyGet p.data 0 = .ok t :=
                  ⟨_, pyGet_eq_ok p.data 0 (by omega) h0N⟩
                have hl0 : l ≤ track0.length := hall track0 (pyGet_ok_mem ht0)
                rw [writeToStream_queue_wrap_inf p l q track track0 hpl hq ht
                  hloops hlast hrg hre ht0 h0c hcN hbc htl hl0]
                refine ⟨_, _, rfl, ?_, Or.inr ⟨0, track0, rfl, ht0, hc2a,
                  (by omega : p.callPos + (l : Int) - track.length <
                    track0.length)⟩⟩
                rw [List.length_append, hdl, List.length_map, List.length_take]
                omega
          · have hq1a : 0 ≤ q + 1 := by omega
            have hq1N : (q + 1).toNat < p.data.length := by omega
            obtain ⟨track1, ht1⟩ : ∃ t, pyGet p.data (q + 1) = .ok t :=
              ⟨_, pyGet_eq_ok p.data (q + 1) hq1a hq1N⟩
            have hl1 : l ≤ track1.length := hall track1 (pyGet_ok_mem ht1)
            rw [writeToStream_next_track p l q track track1 hpl hq ht hloops
              hlast ht1 h0c hcN hbc htl hl1]
            refine ⟨_, _, rfl, ?_, Or.inr ⟨q + 1, track1, rfl, ht1, hc2a,
              (by omega : p.callPos + (l : Int) - track.length <
                track1.length)⟩⟩
            rw [List.length_append, hdl, List.length_map, List.length_take]
            omega
        · rw [writeToStream_track_inf p l q track loops0 hpl hq ht hloops hgt
            he1 h0c hcN hbc htl]
          refine ⟨_, _, rfl, ?_, Or.inr ⟨q, track, hq, ht, hc2a,
            (by omega : p.callPos + (l : Int) - track.length <
              track.length)⟩⟩
          rw [List.length_append, hdl, List.length_map, List.length_take]
          omega
    · rw [writeToStream_mid_track p l q track hpl hq ht (by omega)]
      refine ⟨_, _, rfl, ?_, Or.inr ⟨q, track, hq, ht,
        (by omega : (0 : Int) ≤ p.callPos + l),
        (by omega : p.callPos + (l : Int) < track.length)⟩⟩
      rw [hdl]
      omega

/-- C2: a render call that reaches the end of the last queued track (its
track loop count 1) while `queueLoopsRemaining = 1` sets `endQueue`,
fills the remainder of the output buffer with zero frames, stops playback,
resets `queueLoopsRemaining` to `queueLoops`, and returns without emitting
any frames from another track; every subsequent render call returns
silence and leaves the stopped state unchanged. -/
theorem writeToStream_queue_end_stops (p : Player) (l : Nat) (q : Int)
    (track : List Frame)
    (hp : p.playing = true) (hq : p.queuePos = some q)
    (ht : pyGet p.data q = .ok track)
    (hloops : pyGet p.loops q = .ok 1)
    (hlast : q + 1 = (p.sources.length : Int))
    (hre : p.queueLoopsRemaining = 1)
    (h0c : 0 ≤ p.callPos) (hcN : p.callPos < (track.length : Int))
    (hb : (track.length : Int) ≤ p.callPos + l) (hl : l ≤ track.length) :
    ∃ out,
      p.writeToStream l =
        .ok
          ({ p with playing := false, callPos := 0, endTrack := true,
                    endQueue := true, queuePos := some 0,
                    queueLoopsRemaining := p.queueLoops }, out) ∧
      out = (pySlice track p.callPos (p.callPos + l)).map (scale p.volume) ++
        List.replicate (p.callPos + (l : Int) - track.length).toNat
          ((0 : ℚ), (0 : ℚ)) ∧
      out.length = l ∧
      ∀ l',
        ({ p with playing := false, callPos := 0, endTrack := true,
                  endQueue := true, queuePos := some 0,
                  queueLoopsRemaining := p.queueLoops } : Player).writeToStream
            l' =
          .ok
            ({ p with playing := false, callPos := 0, endTrack := true,
                      endQueue := true, queuePos := some 0,
                      queueLoopsRemaining := p.queueLoops },
             List.replicate l' ((0 : ℚ), (0 : ℚ))) := by
  refine ⟨_, writeToStream_queue_end p l q track hp hq ht hloops hlast hre h0c
    hcN hb hl, rfl, ?_, ?_⟩
  · rw [List.length_append, List.length_map,
      length_pySlice_nonneg _ _ _ h0c, List.length_replicate]
    omega
  · intro l'
    exact writeToStream_not_playing _ l' rfl

/-- C10: a render call that reaches the end of the current track while
that track's loop counter is 0 (infinite looping) refills the rest of the
buffer from frame 0 of the same track, and the resulting state differs
only in `callPos`: the loop counters, `endTrack`, `queuePos`, `endQueue`
and `queueLoopsRemaining` are untouched. -/
theorem writeToStream_infinite_refill (p : Player) (l : Nat) (q : Int)
    (track : List Frame)
    (hp : p.playing = true) (hq : p.queuePos = some q)
    (ht : pyGet p.data q = .ok track)
    (hloops : pyGet p.loops q = .ok 0)
    (h0c : 0 ≤ p.callPos) (hcN : p.callPos < (track.length : Int))
    (hb : (track.length : Int) ≤ p.callPos + l) (hl : l ≤ track.length) :
    ∃ out,
      p.writeToStream l =
        .ok ({ p with callPos := p.callPos + l - track.length }, out) ∧
      out = (pySlice track p.callPos (p.callPos + l)).map (scale p.volume) ++
        (track.take (p.callPos + (l : Int) - track.length).toNat).map
          (scale p.volume) ∧
      out.length = l ∧
      ({ p with callPos := p.callPos + l - track.length } : Player).loops =
        p.loops ∧
      ({ p with callPos := p.callPos + l - track.length } : Player).endTrack =
        p.endTrack ∧
      ({ p with callPos := p.callPos + l - track.length } : Player).queuePos =
        p.queuePos ∧
      ({ p with callPos := p.callPos + l - track.length } : Player).endQueue =
        p.endQueue ∧
      ({ p with callPos :=
          p.callPos + l - track.length } : Player).queueLoopsRemaining =
        p.queueLoopsRemaining := by
  refine ⟨_, writeToStream_track_inf p l q track 0 hp hq ht hloops
    (by norm_num) (by norm_num) h0c hcN hb hl, rfl, ?_, rfl, rfl, rfl, rfl,
    rfl⟩
  rw [List.length_append, List.length_map, length_pySlice_nonneg _ _ _ h0c,
    List.length_map, List.length_take]
  omega

/-- Witness for C1 at a concrete 2-frame single-track player. -/
theorem writeToStream_exact_frames_witness :
    ∃ p' out, playerSmall.writeToStream 1 = .ok (p', out) ∧ out.length = 1 ∧
      ((p'.endQueue = true ∧ p'.playing = false) ∨
        ∃ q' track', p'.queuePos = some q' ∧ pyGet p'.data q' = .ok track' ∧
          0 ≤ p'.callPos ∧ p'.callPos < (track'.length : Int)) :=
  writeToStream_exact_frames playerSmall 1 0 (mkTrack [1, 2]) rfl (by decide)
    (by decide) rfl rfl (by decide) (by decide) (by decide) (by decide)

/-- Witness for C2 at a concrete single-track player 2 frames before its
end, with block size 3. -/
theorem writeToStream_queue_end_stops_witness :
    ∃ out,
      playerAtQueueEnd.writeToStream 3 =
        .ok
          ({ playerAtQueueEnd with playing := false, callPos := 0,
                                   endTrack := true, endQueue := true,
                                   queuePos := some 0,
                                   queueLoopsRemaining :=
                                     playerAtQueueEnd.queueLoops }, out) ∧
      out = (pySlice (mkTrack [1, 2, 3, 4]) playerAtQueueEnd.callPos
          (playerAtQueueEnd.callPos + 3)).map (scale playerAtQueueEnd.volume) ++
        List.replicate (playerAtQueueEnd.callPos + (3 : Int) -
          (mkTrack [1, 2, 3, 4]).length).toNat ((0 : ℚ), (0 : ℚ)) ∧
      out.length = 3 ∧
      ∀ l',
        ({ playerAtQueueEnd with playing := false, callPos := 0,
                                 endTrack := true, endQueue := true,
                                 queuePos := some 0,
                                 queueLoopsRemaining :=
                                   playerAtQueueEnd.queueLoops } :
            Player).writeToStream l' =
          .ok
            ({ playerAtQueueEnd with playing := false, callPos := 0,
                                     endTrack := true, endQueue := true,
                                     queuePos := some 0,
                                     queueLoopsRemaining :=
                                       playerAtQueueEnd.queueLoops },
             List.replicate l' ((0 : ℚ), (0 : ℚ))) :=
  writeToStream_queue_end_stops playerAtQueueEnd 3 0 (mkTrack [1, 2, 3, 4])
    rfl rfl (by decide) (by decide) (by decide) rfl (by decide) (by decide)
    (by decide) (by decide)

/-- Witness for C10 at a concrete player with an infinitely looping
4-frame track. -/
theorem writeToStream_infinite_refill_witness :
    ∃ out,
      playerInfiniteTrack.writeToStream 3 =
        .ok
          ({ playerInfiniteTrack with callPos :=
                                        playerInfiniteTrack.callPos + 3 -
                                          (mkTrack [1, 2, 3, 4]).length },
           out) ∧
      out = (pySlice (mkTrack [1, 2, 3, 4]) playerInfiniteTrack.callPos
          (playerInfiniteTrack.callPos + 3)).map
            (scale playerInfiniteTrack.volume) ++
        ((mkTrack [1, 2, 3, 4]).take (playerInfiniteTrack.callPos + (3 : Int) -
          (mkTrack [1, 2, 3, 4]).length).toNat).map
            (scale playerInfiniteTrack.volume) ∧
      out.length = 3 ∧
      ({ playerInfiniteTrack with callPos :=
                                    playerInfiniteTrack.callPos + 3 -
                                      (mkTrack [1, 2, 3, 4]).length } :
          Player).loops =
        playerInfiniteTrack.loops ∧
      ({ playerInfiniteTrack with callPos :=
                                    playerInfiniteTrack.callPos + 3 -
                                      (mkTrack [1, 2, 3, 4]).length } :
          Player).endTrack =
        playerInfiniteTrack.endTrack ∧
      ({ playerInfiniteTrack with callPos :=
                                    playerInfiniteTrack.callPos + 3 -
                                      (mkTrack [1, 2, 3, 4]).length } :
          Player).queuePos =
        playerInfiniteTrack.queuePos ∧
      ({ playerInfiniteTrack with callPos :=
                                    playerInfiniteTrack.callPos + 3 -
                                      (mkTrack [1, 2, 3, 4]).length } :
          Player).endQueue =
        playerInfiniteTrack.endQueue ∧
      ({ playerInfiniteTrack with callPos :=
                                    playerInfiniteTrack.callPos + 3 -
                                      (mkTrack [1, 2, 3, 4]).length } :
          Player).queueLoopsRemaining =
        playerInfiniteTrack.queueLoopsRemaining :=
  writeToStream_infinite_refill playerInfiniteTrack 3 0 (mkTrack [1, 2, 3, 4])
    rfl rfl (by decide) (by decide) (by decide) (by decide) (by decide)
    (by decide)
